import Mathlib

/-
Shallow embedding of the DineFlow backend's order-lifecycle and
delivery-dispatch subsystem.

Conventions of the embedding:
* The relational store is a `Db` record of lists of rows; `findByPk`-style
  queries are list lookups, row updates map over the list, and a SQL
  transaction is modelled by returning the original `Db` on any error path
  (rollback) and the fully written `Db` on commit.
* `DECIMAL(10,2)` money columns are represented in integer cents (`Nat`);
  the JavaScript truthiness test on a numeric amount is `≠ 0`.
* Timestamps (`created_at`, `delivered_at`, ...) are abstract `Nat` instants.
* JavaScript string primitives used by `Order.generateOrderNumber`
  (`split("-")`, `padStart(3, "0")`, `parseInt` on digit strings,
  `startsWith`, `Number.prototype.toString`) are modelled by executable
  functions on `String.data` character lists below.
-/

namespace DineFlow

/-! ## JavaScript string primitives -/

/-- Decimal digit character, `String.fromCharCode(48 + d)` for `d < 10`. -/
def digitChar (d : Nat) : Char := Char.ofNat (48 + d)

/-- Fuel-driven decimal rendering of a natural number (most significant digit
first).  The fuel is structurally decreasing so that the kernel can evaluate
it; `natDigits` below always supplies enough fuel. -/
def natDigitsAux : Nat → Nat → List Char
  | 0, _ => []
  | fuel + 1, n =>
    if n < 10 then [digitChar n]
    else natDigitsAux fuel (n / 10) ++ [digitChar (n % 10)]

/-- Model of JavaScript `Number.prototype.toString()` on a natural number. -/
def natDigits (n : Nat) : List Char := natDigitsAux (n + 1) n

/-- Decimal string of a natural number (JS `n.toString()`). -/
def natToString (n : Nat) : String := ⟨natDigits n⟩

/-- Model of JavaScript `String.prototype.padStart(3, "0")`. -/
def padStart3Zero (s : String) : String :=
  ⟨List.replicate (3 - s.data.length) '0' ++ s.data⟩

/-- Model of JavaScript `parseInt` on a string of decimal digits (possibly
with leading zeros).  `parseInt` of a malformed string is `NaN` in JS; this
total model is only ever applied to digit strings. -/
def parseNatDigits (s : String) : Nat :=
  s.data.foldl (fun n c => n * 10 + (c.toNat - 48)) 0

/-- Model of JavaScript `String.prototype.split(sep)` for a one-character
separator, at the character-list level. -/
def splitOnChar (sep : Char) : List Char → List (List Char)
  | [] => [[]]
  | c :: cs =>
    if c = sep then [] :: splitOnChar sep cs
    else
      match splitOnChar sep cs with
      | [] => [[c]]
      | h :: t => (c :: h) :: t

/-- JS `s.split("-")` (used on order numbers). -/
def jsSplit (s : String) (sep : Char) : List String :=
  (splitOnChar sep s.data).map (fun l => ⟨l⟩)

/-- JS `s.startsWith(p)`. -/
def jsStartsWith (s p : String) : Bool := p.data.isPrefixOf s.data

/-! ## Enumerations and rows (src/unnamed/part_007, src/models) -/

/-- The `status` ENUM of the `orders` table. -/
inductive OrderStatus
  | pending
  | confirmed
  | preparing
  | ready
  | out_for_delivery
  | delivered
  | cancelled
  deriving DecidableEq, Repr

/-- The `payment_status` ENUM of the `orders` table. -/
inductive PaymentStatus
  | pending
  | paid
  | failed
  | refunded
  deriving DecidableEq, Repr

/-- User roles relevant to the order subsystem. -/
inductive Role
  | customer
  | restaurant_owner
  | rider
  deriving DecidableEq, Repr

/-- A row of the `users` table (fields used by the dispatch engine). -/
structure User where
  id : Nat
  role : Role
  is_active : Bool
  created_at : Nat
  deriving DecidableEq, Repr

/-- A row of the `restaurants` table (fields used by order routes). -/
structure Restaurant where
  id : Nat
  owner_id : Nat
  is_active : Bool
  is_accepting_orders : Bool
  deriving DecidableEq, Repr

/-- A row of the `addresses` table (fields used by order placement). -/
structure Address where
  id : Nat
  user_id : Nat
  deriving DecidableEq, Repr

/-- A row of the `menu_items` table (fields used by order placement;
`name` is snapshotted into order items). -/
structure MenuItem where
  id : Nat
  restaurant_id : Nat
  name : String
  deriving DecidableEq, Repr

/-- A row of the `carts` table. -/
structure Cart where
  id : Nat
  user_id : Nat
  restaurant_id : Nat
  created_at : Nat
  deriving DecidableEq, Repr

/-- A row of the `cart_items` table (`price` is the snapshot in cents). -/
structure CartItem where
  id : Nat
  cart_id : Nat
  menu_item_id : Nat
  quantity : Nat
  price : Nat
  deriving DecidableEq, Repr

/-- A row of the `orders` table (`src/unnamed/part_007`); money in cents,
ORM-managed `updated_at` elided. -/
structure Order where
  id : Nat
  customer_id : Nat
  restaurant_id : Nat
  address_id : Nat
  rider_id : Option Nat
  order_number : String
  status : OrderStatus
  subtotal : Nat
  delivery_fee : Nat
  total_amount : Nat
  payment_status : PaymentStatus
  estimated_delivery_time : Option Nat
  delivered_at : Option Nat
  cancelled_at : Option Nat
  cancellation_reason : Option String
  rider_earning : Option Nat
  created_at : Nat
  deriving DecidableEq, Repr

/-- A row of the `order_items` table. -/
structure OrderItem where
  id : Nat
  order_id : Nat
  menu_item_id : Nat
  quantity : Nat
  price : Nat
  item_name : String
  deriving DecidableEq, Repr

/-- The relational store. -/
structure Db where
  users : List User
  restaurants : List Restaurant
  addresses : List Address
  menuItems : List MenuItem
  carts : List Cart
  cartItems : List CartItem
  orders : List Order
  orderItems : List OrderItem
  deriving DecidableEq, Repr

/-- Decidable equality of `Except` results, so that witnesses can be checked
by evaluation. -/
instance {ε α : Type} [DecidableEq ε] [DecidableEq α] : DecidableEq (Except ε α)
  | .ok a, .ok b =>
    if h : a = b then .isTrue (by rw [h]) else .isFalse (by intro he; cases he; exact h rfl)
  | .ok _, .error _ => .isFalse (by intro h; cases h)
  | .error _, .ok _ => .isFalse (by intro h; cases h)
  | .error e, .error f =>
    if h : e = f then .isTrue (by rw [h]) else .isFalse (by intro he; cases he; exact h rfl)

/-! ## Generic store helpers -/

/-- `findOne(... order: [["created_at","DESC"]])`: the row with the greatest
key (the first such row when keys tie, matching an arbitrary but fixed SQL
choice). -/
def latestBy (key : α → Nat) (l : List α) : Option α :=
  l.foldl
    (fun acc o =>
      match acc with
      | none => some o
      | some a => if key o > key a then some o else some a)
    none

/-- Fresh AUTO_INCREMENT primary key: one past the largest id in use. -/
def nextId (ids : List Nat) : Nat := ids.foldr max 0 + 1

/-- Row update by primary key (`instance.update(...)` on the row found by
`findByPk`). -/
def updateRowById (id : Nat) (f : Order → Order) (orders : List Order) : List Order :=
  orders.map (fun o => if o.id = id then f o else o)

/-! ## Stable sorting

`Array.prototype.sort` with comparator `(a, b) => a.count - b.count` is a
stable sort in the host runtime (required by ECMAScript 2019), and
`ORDER BY created_at ASC` is modelled with the same stable sort.  Both are
embedded as insertion sort by a `Nat` key, which is stable: an element is
inserted after all earlier elements with a strictly smaller key and before
later elements with an equal key. -/

/-- Insert into a key-sorted list, keeping earlier-inserted equal keys first. -/
def insertByKey (key : α → Nat) (x : α) : List α → List α
  | [] => [x]
  | y :: ys => if key x ≤ key y then x :: y :: ys else y :: insertByKey key x ys

/-- Stable sort by a `Nat` key. -/
def stableSortByKey (key : α → Nat) (l : List α) : List α :=
  l.foldr (insertByKey key) []

/-- Insert into a descending key-sorted list, keeping earlier-inserted equal
keys first (`ORDER BY ... DESC`). -/
def insertByKeyDesc (key : α → Nat) (x : α) : List α → List α
  | [] => [x]
  | y :: ys => if key y ≤ key x then x :: y :: ys else y :: insertByKeyDesc key x ys

/-- Stable sort by a `Nat` key, descending. -/
def stableSortByKeyDesc (key : α → Nat) (l : List α) : List α :=
  l.foldr (insertByKeyDesc key) []

/-- First element of a list attaining the minimal key (the element a stable
ascending sort puts first). -/
def firstMinBy (key : α → Nat) : List α → Option α
  | [] => none
  | x :: xs =>
    match firstMinBy key xs with
    | none => some x
    | some m => if key x ≤ key m then some x else some m

/-! ## Order model statics (src/unnamed/part_007) -/

/-- `Order.findByPk` / `Order.findById`. -/
def Order.findByPk (db : Db) (id : Nat) : Option Order :=
  db.orders.find? (fun o => o.id = id)

/-- The `ORD-<dateStr>-` prefix used in the `LIKE` query and in generated
order numbers (`dateStr` is the `YYYYMMDD` rendering of the current date,
taken as a parameter of the embedding). -/
def orderNumberDayTag (dateStr : String) : String := "ORD-" ++ dateStr ++ "-"

/-- Render an order number `ORD-<dateStr>-<padStart3Zero seq>`. -/
def mkOrderNumber (dateStr : String) (seq : Nat) : String :=
  orderNumberDayTag dateStr ++ padStart3Zero (natToString seq)

/-- The daily sequence the code reads back out of an order number:
`parseInt(orderNumber.split("-")[2])`. -/
def seqOfOrderNumber (num : String) : Nat :=
  parseNatDigits ((jsSplit num '-').getD 2 "")

/-- `Order.generateOrderNumber`: find the most recently created order whose
number matches today's `ORD-<dateStr>-%` pattern, parse its 3-digit daily
sequence, and render one plus that sequence (1 when no order matched). -/
def Order.generateOrderNumber (db : Db) (dateStr : String) : String :=
  let todays := db.orders.filter
    (fun o => jsStartsWith o.order_number (orderNumberDayTag dateStr))
  let seq : Nat :=
    match latestBy Order.created_at todays with
    | none => 1
    | some lastOrder => seqOfOrderNumber lastOrder.order_number + 1
  mkOrderNumber dateStr seq

/-- `Order.findAvailableForRider`: unassigned `ready` orders, oldest first
(`ORDER BY created_at ASC`), up to `limit`. -/
def Order.findAvailableForRider (db : Db) (limit : Nat) : List Order :=
  (stableSortByKey Order.created_at
    (db.orders.filter (fun o => o.status = .ready ∧ o.rider_id = none))).take limit

/-- Optional fields of `additionalData` passed into `Order.updateStatus`
by its callers (the status route passes `estimated_delivery_time`,
`Order.cancelOrder` passes `cancellation_reason`). -/
structure UpdateExtra where
  estimated_delivery_time : Option Nat := none
  cancellation_reason : Option String := none
  deriving DecidableEq, Repr

/-- Rider earning on delivery: `(parseFloat(delivery_fee) * 0.80).toFixed(2)`,
i.e. 80% of the delivery fee rounded half-up to whole cents. -/
def riderEarningCents (feeCents : Nat) : Nat := (8 * feeCents + 5) / 10

/-- The field updates `Order.updateStatus` applies to the found order:
merge `additionalData`, set the new status, then the status-specific
side effects (`delivered`: stamp `delivered_at` and, if a rider is assigned
and the delivery fee is truthy, compute `rider_earning`; `cancelled`:
stamp `cancelled_at` and clear `rider_earning`). -/
def applyUpdateStatus (o : Order) (status : OrderStatus) (extra : UpdateExtra)
    (now : Nat) : Order :=
  let merged := { o with
    status := status
    estimated_delivery_time :=
      match extra.estimated_delivery_time with
      | some t => some t
      | none => o.estimated_delivery_time
    cancellation_reason :=
      match extra.cancellation_reason with
      | some r => some r
      | none => o.cancellation_reason }
  if status = .delivered then
    { merged with
      delivered_at := some now
      rider_earning :=
        if o.rider_id.isSome ∧ o.delivery_fee ≠ 0 then
          some (riderEarningCents o.delivery_fee)
        else merged.rider_earning }
  else if status = .cancelled then
    { merged with cancelled_at := some now, rider_earning := none }
  else merged

/-- `Order.updateStatus`: throws when the order is absent, otherwise applies
`applyUpdateStatus` to the row.  (The `validStatuses` membership check of the
source is vacuous here because `OrderStatus` is the closed enum itself.) -/
def Order.updateStatus (db : Db) (id : Nat) (status : OrderStatus)
    (extra : UpdateExtra) (now : Nat) : Except String (Order × Db) :=
  match Order.findByPk db id with
  | none => .error "Order not found"
  | some o =>
    let o' := applyUpdateStatus o status extra now
    .ok (o', { db with orders := updateRowById id (fun _ => o') db.orders })

/-- `Order.assignRider`: throws when the order is absent or not `ready`,
otherwise writes `rider_id`. -/
def Order.assignRider (db : Db) (id riderId : Nat) : Except String Db :=
  match Order.findByPk db id with
  | none => .error "Order not found"
  | some o =>
    if o.status ≠ .ready then .error "Order must be ready before assigning a rider"
    else .ok { db with
      orders := updateRowById id (fun x => { x with rider_id := some riderId }) db.orders }

/-! ## User model statics (src/models/User.model.js) -/

/-- `User.findByPk` / `User.findById`. -/
def User.findByPk (db : Db) (id : Nat) : Option User :=
  db.users.find? (fun u => u.id = id)

/-- `User.findByRole(role, { limit, where })`: active users of the role,
newest first (`ORDER BY created_at DESC`), up to `limit` rows (the rider
service additionally passes `is_active: true`, which `findByRole` already
enforces). -/
def User.findByRole (db : Db) (role : Role) (limit : Nat) : List User :=
  (stableSortByKeyDesc User.created_at
    (db.users.filter (fun u => u.role = role ∧ u.is_active))).take limit

/-! ## Rider service (src/unnamed/part_003) -/

/-- Whether an order occupies a rider: its status is `ready` or
`out_for_delivery`. -/
def activeStatus (s : OrderStatus) : Prop := s = .ready ∨ s = .out_for_delivery

instance (s : OrderStatus) : Decidable (activeStatus s) := by
  unfold activeStatus; infer_instance

/-- `findAvailableRiders`: all active riders (capped at 100), minus those
who currently hold an order in status `ready` or `out_for_delivery`, capped
to the candidate `limit` (default 10). -/
def findAvailableRiders (db : Db) (limit : Nat) : List User :=
  let allRiders := User.findByRole db .rider 100
  if allRiders.length = 0 then []
  else
    let riderIds := allRiders.map User.id
    let busyRiderIds :=
      ((db.orders.filter (fun o =>
          (match o.rider_id with
           | some rid => decide (rid ∈ riderIds)
           | none => false) && decide (activeStatus o.status))).filterMap Order.rider_id).dedup
    (allRiders.filter (fun r => r.id ∉ busyRiderIds)).take limit

/-- `Order.count({ rider_id, status: { in: [ready, out_for_delivery] } })`. -/
def countActiveDeliveries (db : Db) (riderId : Nat) : Nat :=
  (db.orders.filter (fun o => o.rider_id = some riderId ∧ activeStatus o.status)).length

/-- The per-candidate `(rider, activeDeliveries)` counts computed by
`autoAssignRider`. -/
def riderDeliveryCounts (db : Db) (cands : List User) : List (User × Nat) :=
  cands.map (fun r => (r, countActiveDeliveries db r.id))

/-- `riderDeliveryCounts.sort((a, b) => a.count - b.count)` followed by
`[0].rider`: stable ascending sort by count, first element. -/
def selectLeastLoaded (counts : List (User × Nat)) : Option User :=
  ((stableSortByKey (fun p => p.2) counts).head?).map (fun p => p.1)

/-- Result record of `autoAssignRider`. -/
structure AssignResult where
  success : Bool
  rider : Option User
  message : String
  alreadyAssigned : Bool := false
  deriving DecidableEq, Repr

/-- `autoAssignRider(orderId)`: throw if the order is absent; declined result
if it is not `ready`; idempotent success if a rider is already assigned;
declined result if no candidate is available; otherwise assign the
least-loaded candidate (stable tie-break) and write `rider_id`. -/
def autoAssignRider (db : Db) (orderId : Nat) : Except String (AssignResult × Db) :=
  match Order.findByPk db orderId with
  | none => .error "Order not found"
  | some order =>
    if order.status ≠ .ready then
      .ok ({ success := false, rider := none,
             message := "Order must be in 'ready' status" }, db)
    else
      match order.rider_id with
      | some rid =>
        .ok ({ success := true, rider := User.findByPk db rid,
               message := "Rider already assigned", alreadyAssigned := true }, db)
      | none =>
        let availableRiders := findAvailableRiders db 10
        if availableRiders.length = 0 then
          .ok ({ success := false, rider := none,
                 message := "No available riders at the moment. Please try again later." }, db)
        else
          match selectLeastLoaded (riderDeliveryCounts db availableRiders) with
          | none =>
            -- unreachable: the sorted candidate list is nonempty here
            .error "no candidate"
          | some selectedRider =>
            match Order.assignRider db orderId selectedRider.id with
            | .error e => .error e
            | .ok db' =>
              .ok ({ success := true, rider := some selectedRider,
                     message := "Rider has been automatically assigned to the order",
                     alreadyAssigned := false }, db')

/-- One entry of the backlog-drain report. -/
structure DrainEntry where
  order_id : Nat
  order_number : String
  success : Bool
  rider : Option User
  message : String
  deriving DecidableEq, Repr

/-- The per-order loop of `assignPendingReadyOrders`: try `autoAssignRider`
on each pulled order against the evolving store; a thrown error for one
order is caught, reported as a failed entry, and processing continues. -/
def drainLoop (db : Db) : List Order → List DrainEntry × Db
  | [] => ([], db)
  | o :: rest =>
    match autoAssignRider db o.id with
    | .ok (res, db') =>
      ({ order_id := o.id, order_number := o.order_number, success := res.success,
         rider := res.rider, message := res.message } :: (drainLoop db' rest).1,
       (drainLoop db' rest).2)
    | .error e =>
      ({ order_id := o.id, order_number := o.order_number, success := false,
         rider := none, message := e } :: (drainLoop db rest).1,
       (drainLoop db rest).2)

/-- `assignPendingReadyOrders(maxAssignments)`: pull the oldest unassigned
`ready` orders (up to `maxAssignments`) and try to assign each one. -/
def assignPendingReadyOrders (db : Db) (maxAssignments : Nat) : List DrainEntry × Db :=
  drainLoop db (Order.findAvailableForRider db maxAssignments)

/-! ## Notification fanout (src/services/notification.service.js) -/

/-- The `type` values `notifyOrderStatusChange` writes. -/
inductive NotifType
  | new_order
  | order_confirmed
  | order_preparing
  | order_ready
  | order_ready_for_pickup
  | order_out_for_delivery
  | order_delivered
  | order_cancelled
  | order_cancelled_restaurant
  | order_cancelled_rider
  deriving DecidableEq, Repr

/-- One notification produced by the fanout, projected to recipient, role and
type (the human-readable `title`/`message` strings and the structured `data`
payload are elided). -/
structure NotifEntry where
  userId : Nat
  userRole : Role
  ntype : NotifType
  deriving DecidableEq, Repr

/-- The order snapshot the status route hands to `notifyOrderStatusChange`
(`owner_id` is `order.restaurant.owner_id`; branches that dereference it
assume the restaurant was found, as in the source). -/
structure OrderSnapshot where
  id : Nat
  customer_id : Nat
  restaurant_id : Nat
  rider_id : Option Nat
  owner_id : Nat
  deriving DecidableEq, Repr

/-- `notifyOrderStatusChange`: the list of notifications pushed for a
transition of `o` into `status`, in creation order. -/
def notifyOrderStatusChange (o : OrderSnapshot) (status : OrderStatus) : List NotifEntry :=
  match status with
  | .pending => [⟨o.owner_id, .restaurant_owner, .new_order⟩]
  | .confirmed => [⟨o.customer_id, .customer, .order_confirmed⟩]
  | .preparing => [⟨o.customer_id, .customer, .order_preparing⟩]
  | .ready =>
    ⟨o.customer_id, .customer, .order_ready⟩ ::
      (match o.rider_id with
       | some rid => [⟨rid, .rider, .order_ready_for_pickup⟩]
       | none => [])
  | .out_for_delivery => [⟨o.customer_id, .customer, .order_out_for_delivery⟩]
  | .delivered =>
    [⟨o.customer_id, .customer, .order_delivered⟩,
     ⟨o.owner_id, .restaurant_owner, .order_delivered⟩]
  | .cancelled =>
    ⟨o.customer_id, .customer, .order_cancelled⟩ ::
      ⟨o.owner_id, .restaurant_owner, .order_cancelled_restaurant⟩ ::
      (match o.rider_id with
       | some rid => [⟨rid, .rider, .order_cancelled_rider⟩]
       | none => [])

/-! ## Cart / address / restaurant statics used by order placement -/

/-- `Cart.findByUser`: the user's most recently created cart. -/
def Cart.findByUser (db : Db) (userId : Nat) : Option Cart :=
  latestBy Cart.created_at (db.carts.filter (fun c => c.user_id = userId))

/-- `CartItem.findByCart`. -/
def CartItem.findByCart (db : Db) (cartId : Nat) : List CartItem :=
  db.cartItems.filter (fun i => i.cart_id = cartId)

/-- `CartItem.calculateSubtotal`: `SUM(quantity * price)` over the cart. -/
def CartItem.calculateSubtotal (db : Db) (cartId : Nat) : Nat :=
  ((CartItem.findByCart db cartId).map (fun i => i.quantity * i.price)).sum

/-- `Address.findById`. -/
def Address.findById (db : Db) (id : Nat) : Option Address :=
  db.addresses.find? (fun a => a.id = id)

/-- `Restaurant.findById` / `Restaurant.findByPk`. -/
def Restaurant.findById (db : Db) (id : Nat) : Option Restaurant :=
  db.restaurants.find? (fun r => r.id = id)

/-- `MenuItem.findByPk`. -/
def MenuItem.findByPk (db : Db) (id : Nat) : Option MenuItem :=
  db.menuItems.find? (fun m => m.id = id)

/-! ## Cart-to-order converter (src/routes/address.routes.js, POST /) -/

/-- Failure modes of the order-placement route (each tagged with the HTTP
answer the route sends). -/
inductive PlaceError
  | addressRequired
  | emptyCart
  | addressNotFound
  | addressForbidden
  | restaurantUnavailable
  | menuItemNotFound (menuItemId : Nat)
  deriving DecidableEq, Repr

/-- `OrderItem.createFromCart`: one order item per cart item, snapshotting
the cart's price and the menu item's name; throws (rolling the transaction
back) when a referenced menu item no longer exists.  Fresh ids are assigned
sequentially from `startId`. -/
def OrderItem.createFromCart (db : Db) (orderId : Nat) :
    List CartItem → Nat → Except PlaceError (List OrderItem)
  | [], _ => .ok []
  | ci :: rest, startId =>
    match MenuItem.findByPk db ci.menu_item_id with
    | none => .error (.menuItemNotFound ci.menu_item_id)
    | some mi =>
      match OrderItem.createFromCart db orderId rest (startId + 1) with
      | .error e => .error e
      | .ok tail =>
        .ok ({ id := startId, order_id := orderId, menu_item_id := ci.menu_item_id,
               quantity := ci.quantity, price := ci.price, item_name := mi.name } :: tail)

/-- The fixed delivery-fee policy constant of the route (`50.0` rupees). -/
def deliveryFeeCents : Nat := 5000

/-- `POST /api/orders` (create order from cart), up to the transaction
commit: validations in route order, then — inside one transaction — insert
the order, insert its items, and delete the cart and its items.  Every error
path returns the unchanged store (rollback); the post-commit notification
side channel is best-effort and does not touch these tables. -/
def placeOrder (db : Db) (userId addressId : Nat) (dateStr : String) (now : Nat) :
    Except PlaceError (Order × List OrderItem) × Db :=
  if addressId = 0 then (.error .addressRequired, db)
  else
    match Cart.findByUser db userId with
    | none => (.error .emptyCart, db)
    | some cart =>
      let cartItems := CartItem.findByCart db cart.id
      if cartItems.length = 0 then (.error .emptyCart, db)
      else
        match Address.findById db addressId with
        | none => (.error .addressNotFound, db)
        | some address =>
          if address.user_id ≠ userId then (.error .addressForbidden, db)
          else
            match Restaurant.findById db cart.restaurant_id with
            | none => (.error .restaurantUnavailable, db)
            | some restaurant =>
              if ¬ (restaurant.is_active ∧ restaurant.is_accepting_orders) then
                (.error .restaurantUnavailable, db)
              else
                let subtotal := CartItem.calculateSubtotal db cart.id
                let totalAmount := subtotal + deliveryFeeCents
                let orderNumber := Order.generateOrderNumber db dateStr
                let oid := nextId (db.orders.map Order.id)
                let order : Order :=
                  { id := oid, customer_id := userId, restaurant_id := cart.restaurant_id,
                    address_id := addressId, rider_id := none,
                    order_number := orderNumber, status := .pending,
                    subtotal := subtotal, delivery_fee := deliveryFeeCents,
                    total_amount := totalAmount, payment_status := .pending,
                    estimated_delivery_time := none, delivered_at := none,
                    cancelled_at := none, cancellation_reason := none,
                    rider_earning := none, created_at := now }
                match OrderItem.createFromCart db oid cartItems
                    (nextId (db.orderItems.map OrderItem.id)) with
                | .error e => (.error e, db)
                | .ok orderItems =>
                  (.ok (order, orderItems),
                   { db with
                     orders := db.orders ++ [order]
                     orderItems := db.orderItems ++ orderItems
                     cartItems := db.cartItems.filter (fun i => i.cart_id ≠ cart.id)
                     carts := db.carts.filter (fun c => c.id ≠ cart.id) })

/-! ## Status-update route (src/routes/address.routes.js, PUT /:id/status) -/

/-- Outcome of the status-update route, tagged like its HTTP answers. -/
inductive HandlerResult
  | ok (order : Order)
  | badRequest (msg : String)
  | forbidden (msg : String)
  | notFound (msg : String)
  | serverError (msg : String)
  deriving DecidableEq, Repr

/-- The restaurant owner's `validTransitions` lookup object: `undefined`
(`none`) for current statuses outside the table. -/
def ownerTransitionTable : OrderStatus → Option (List OrderStatus)
  | .pending => some [.confirmed]
  | .confirmed => some [.preparing]
  | .preparing => some [.ready]
  | _ => none

/-- The rider's `validTransitions` lookup object. -/
def riderTransitionTable : OrderStatus → Option (List OrderStatus)
  | .ready => some [.out_for_delivery]
  | .out_for_delivery => some [.delivered]
  | _ => none

/-- The transition check shared by both role branches:
`if (validTransitions[order.status] && !validTransitions[order.status].includes(status))`
rejects, i.e. the target is refused exactly when the current status HAS an
entry in the table and the target is not in that entry. -/
def transitionCheckRejects (table : OrderStatus → Option (List OrderStatus))
    (current target : OrderStatus) : Bool :=
  match table current with
  | some allowed => ¬ target ∈ allowed
  | none => false

/-- The post-update dispatch chaining of the route: auto-assign on `ready`
when no rider is attached yet (failures swallowed), and drain one backlog
order after a rider delivers. -/
def statusRouteSideEffects (db : Db) (role : Role) (orderId : Nat)
    (target : OrderStatus) (updated : Order) : Db :=
  let dbAfterAssign :=
    if target = .ready ∧ updated.rider_id = none then
      match autoAssignRider db orderId with
      | .ok (_, db') => db'
      | .error _ => db
    else db
  if target = .delivered ∧ role = .rider then
    (assignPendingReadyOrders dbAfterAssign 1).2
  else dbAfterAssign

/-- `PUT /api/orders/:id/status`: role gate, ownership / assignment check,
role-allowed target check, table-driven transition check, then
`Order.updateStatus` followed by the dispatch side effects.  The
notification fanout (`notifyOrderStatusChange`, embedded separately) is
best-effort and writes no order row. -/
def updateOrderStatusHandler (db : Db) (userId : Nat) (role : Role)
    (orderId : Nat) (target : OrderStatus) (edt : Option Nat) (now : Nat) :
    HandlerResult × Db :=
  if role = .customer then (.forbidden "Access denied", db)
  else
    match Order.findByPk db orderId with
    | none => (.notFound "Order not found", db)
    | some order =>
      let proceed : HandlerResult × Db :=
        match Order.updateStatus db orderId target
            { estimated_delivery_time := edt } now with
        | .error e => (.serverError e, db)
        | .ok (updated, db') =>
          let dbFinal := statusRouteSideEffects db' role orderId target updated
          match Order.findByPk dbFinal orderId with
          | some finalOrder => (.ok finalOrder, dbFinal)
          | none => (.serverError "Order not found", dbFinal)
      if role = .restaurant_owner then
        match Restaurant.findById db order.restaurant_id with
        | none => (.forbidden "You can only update orders for your own restaurants", db)
        | some restaurant =>
          if restaurant.owner_id ≠ userId then
            (.forbidden "You can only update orders for your own restaurants", db)
          else if ¬ target ∈ [OrderStatus.confirmed, .preparing, .ready] then
            (.forbidden "Restaurant owners can only update status to: confirmed, preparing, ready", db)
          else if transitionCheckRejects ownerTransitionTable order.status target then
            (.badRequest "Cannot change status", db)
          else proceed
      else
        if order.rider_id ≠ some userId then
          (.forbidden "You can only update orders assigned to you", db)
        else if ¬ target ∈ [OrderStatus.out_for_delivery, .delivered] then
          (.forbidden "Riders can only update status to: out_for_delivery, delivered", db)
        else if transitionCheckRejects riderTransitionTable order.status target then
          (.badRequest "Cannot change status", db)
        else proceed

/-! ## The state machine of spec §4.2 (reference relation for the claims) -/

/-- Modelled from the spec: the role-gated legal transition relation of
§4.2 — owner: pending→confirmed→preparing→ready; rider: ready→
out_for_delivery→delivered; customer: any non-terminal →cancelled. -/
def specLegalTransition (role : Role) (current target : OrderStatus) : Bool :=
  match role with
  | .restaurant_owner =>
    (current, target) ∈ [(OrderStatus.pending, OrderStatus.confirmed),
      (.confirmed, .preparing), (.preparing, .ready)]
  | .rider =>
    (current, target) ∈ [(OrderStatus.ready, OrderStatus.out_for_delivery),
      (.out_for_delivery, .delivered)]
  | .customer =>
    ¬ current ∈ [OrderStatus.delivered, .cancelled] ∧ target = .cancelled

/-- Modelled from the spec's §4.4 mapping as amended by the fanout actually
implemented: `out_for_delivery` notifies the customer only, `delivered`
notifies customer and restaurant owner, `cancelled` notifies customer,
restaurant owner and — when assigned — the rider; `confirmed`/`preparing`
notify the customer, `ready` notifies the customer plus an assigned rider,
and `pending` notifies the restaurant owner. -/
def amendedFanoutRecipients (o : OrderSnapshot) (status : OrderStatus) : List (Nat × Role) :=
  match status with
  | .pending => [(o.owner_id, .restaurant_owner)]
  | .confirmed => [(o.customer_id, .customer)]
  | .preparing => [(o.customer_id, .customer)]
  | .ready =>
    (o.customer_id, Role.customer) ::
      (match o.rider_id with
       | some rid => [(rid, Role.rider)]
       | none => [])
  | .out_for_delivery => [(o.customer_id, .customer)]
  | .delivered => [(o.customer_id, .customer), (o.owner_id, .restaurant_owner)]
  | .cancelled =>
    (o.customer_id, Role.customer) :: (o.owner_id, Role.restaurant_owner) ::
      (match o.rider_id with
       | some rid => [(rid, Role.rider)]
       | none => [])

/-! ## Concrete stores used as failing inputs and witnesses -/

/-- A `ready` order already assigned to rider 7. -/
def exOrderReady : Order :=
  { id := 1, customer_id := 9, restaurant_id := 2, address_id := 3,
    rider_id := some 7, order_number := "ORD-20260108-001", status := .ready,
    subtotal := 2500, delivery_fee := 5000, total_amount := 7500,
    payment_status := .pending, estimated_delivery_time := none,
    delivered_at := none, cancelled_at := none, cancellation_reason := none,
    rider_earning := none, created_at := 10 }

/-- Store for the C1 failing input: restaurant 2 is owned by user 5 and
order 1 is `ready`. -/
def exDbC1 : Db :=
  { users := [⟨5, .restaurant_owner, true, 0⟩, ⟨7, .rider, true, 0⟩],
    restaurants := [⟨2, 5, true, true⟩],
    addresses := [⟨3, 9⟩],
    menuItems := [], carts := [], cartItems := [],
    orders := [exOrderReady],
    orderItems := [] }

/-- Store for the C2 witness: order 1 is `out_for_delivery` with rider 7 and
a 50.00 delivery fee; order 2 is `preparing` with a rider and no earning. -/
def exDbC2 : Db :=
  { users := [⟨7, .rider, true, 0⟩],
    restaurants := [⟨2, 5, true, true⟩],
    addresses := [⟨3, 9⟩],
    menuItems := [], carts := [], cartItems := [],
    orders := [{ exOrderReady with status := .out_for_delivery },
               { exOrderReady with id := 2, status := .preparing,
                                   order_number := "ORD-20260108-002" }],
    orderItems := [] }

/-- Order 1 of `exDbC2` before its transition. -/
def ordC2a : Order := { exOrderReady with status := .out_for_delivery }

/-- Order 2 of `exDbC2` before its transition. -/
def ordC2b : Order :=
  { exOrderReady with id := 2, status := .preparing,
                      order_number := "ORD-20260108-002" }

/-- Order 1 of `exDbC2` after transitioning to `delivered` at time 77. -/
def deliveredOrderC2 : Order :=
  { ordC2a with status := .delivered, delivered_at := some 77,
                rider_earning := some 4000 }

/-- The store after order 1 of `exDbC2` is delivered. -/
def deliveredDbC2 : Db := { exDbC2 with orders := [deliveredOrderC2, ordC2b] }

/-- Order 2 of `exDbC2` after being cancelled at time 88. -/
def cancelledOrderC2 : Order :=
  { ordC2b with status := .cancelled, cancelled_at := some 88,
                cancellation_reason := some "r", rider_earning := none }

/-- The store after order 2 of `exDbC2` is cancelled. -/
def cancelledDbC2 : Db := { exDbC2 with orders := [ordC2a, cancelledOrderC2] }

/-- Snapshot for the C3 counterexample: customer 10, restaurant owner 40,
rider 30 assigned. -/
def exSnapC3 : OrderSnapshot :=
  { id := 1, customer_id := 10, restaurant_id := 2, rider_id := some 30,
    owner_id := 40 }

/-- Store for the C4 counterexample: order 1 already has rider 7 but is
`out_for_delivery`, not `ready`. -/
def exDbC4 : Db :=
  { users := [⟨7, .rider, true, 0⟩],
    restaurants := [⟨2, 5, true, true⟩],
    addresses := [⟨3, 9⟩],
    menuItems := [], carts := [], cartItems := [],
    orders := [{ exOrderReady with status := .out_for_delivery }],
    orderItems := [] }

/-- Store for the C4 witness: order 1 is `ready` with rider 7 assigned. -/
def exDbC4w : Db :=
  { users := [⟨7, .rider, true, 0⟩],
    restaurants := [⟨2, 5, true, true⟩],
    addresses := [⟨3, 9⟩],
    menuItems := [], carts := [], cartItems := [],
    orders := [exOrderReady],
    orderItems := [] }

/-- Store for the C5 witness: one unassigned `ready` order and two free
riders, 7 listed before 8. -/
def exDbC5 : Db :=
  { users := [⟨7, .rider, true, 0⟩, ⟨8, .rider, true, 1⟩],
    restaurants := [⟨2, 5, true, true⟩],
    addresses := [⟨3, 9⟩],
    menuItems := [], carts := [], cartItems := [],
    orders := [{ exOrderReady with rider_id := none }],
    orderItems := [] }

/-- Distinct riders used in the C5 `[2,0,1]` load instance. -/
def exRiderA : User := ⟨101, .rider, true, 0⟩

/-- Second rider of the C5 load instance. -/
def exRiderB : User := ⟨102, .rider, true, 0⟩

/-- Third rider of the C5 load instance. -/
def exRiderC : User := ⟨103, .rider, true, 0⟩

/-- Store for the C6 witness: user 9 has no cart at all. -/
def exDbC6 : Db :=
  { users := [⟨9, .customer, true, 0⟩],
    restaurants := [⟨2, 5, true, true⟩],
    addresses := [⟨3, 9⟩],
    menuItems := [], carts := [], cartItems := [],
    orders := [], orderItems := [] }

/-- Store for the C7 witness and scenario: customer 9's cart holds item A
(2 × 10.00) and item B (1 × 5.00). -/
def exDbC7 : Db :=
  { users := [⟨9, .customer, true, 0⟩],
    restaurants := [⟨2, 5, true, true⟩],
    addresses := [⟨3, 9⟩],
    menuItems := [⟨11, 2, "A"⟩, ⟨12, 2, "B"⟩],
    carts := [⟨4, 9, 2, 1⟩],
    cartItems := [⟨21, 4, 11, 2, 1000⟩, ⟨22, 4, 12, 1, 500⟩],
    orders := [], orderItems := [] }

/-- The cart row of `exDbC7`. -/
def exCartC7 : Cart := ⟨4, 9, 2, 1⟩

/-- The order `placeOrder` commits on `exDbC7`. -/
def placedOrderC7 : Order :=
  { id := 1, customer_id := 9, restaurant_id := 2, address_id := 3,
    rider_id := none, order_number := "ORD-20260108-001", status := .pending,
    subtotal := 2500, delivery_fee := 5000, total_amount := 7500,
    payment_status := .pending, estimated_delivery_time := none,
    delivered_at := none, cancelled_at := none, cancellation_reason := none,
    rider_earning := none, created_at := 50 }

/-- The order items `placeOrder` commits on `exDbC7`. -/
def placedItemsC7 : List OrderItem :=
  [⟨1, 1, 11, 2, 1000, "A"⟩, ⟨2, 1, 12, 1, 500, "B"⟩]

/-- The store after the `exDbC7` placement commits. -/
def placedDbC7 : Db :=
  { users := [⟨9, .customer, true, 0⟩],
    restaurants := [⟨2, 5, true, true⟩],
    addresses := [⟨3, 9⟩],
    menuItems := [⟨11, 2, "A"⟩, ⟨12, 2, "B"⟩],
    carts := [], cartItems := [],
    orders := [placedOrderC7], orderItems := placedItemsC7 }

/-- Store for the C8 witness: two unassigned `ready` orders (created at 10
and 11) and no riders at all, so both assignments fail yet both are
reported. -/
def exDbC8 : Db :=
  { users := [],
    restaurants := [⟨2, 5, true, true⟩],
    addresses := [⟨3, 9⟩],
    menuItems := [], carts := [], cartItems := [],
    orders := [{ exOrderReady with rider_id := none },
               { exOrderReady with id := 2, rider_id := none,
                                   order_number := "ORD-20260108-002",
                                   created_at := 11 }],
    orderItems := [] }

/-- Store for the C9 witness: one order numbered `ORD-20260108-001` exists
for the day. -/
def exDbC9 : Db :=
  { users := [], restaurants := [], addresses := [],
    menuItems := [], carts := [], cartItems := [],
    orders := [{ exOrderReady with rider_id := none }],
    orderItems := [] }

/-- Store for the C10 witness: an unassigned `ready` order and two free
riders. -/
def exDbC10 : Db :=
  { users := [⟨7, .rider, true, 0⟩, ⟨8, .rider, true, 1⟩],
    restaurants := [⟨2, 5, true, true⟩],
    addresses := [⟨3, 9⟩],
    menuItems := [], carts := [], cartItems := [],
    orders := [{ exOrderReady with id := 4, rider_id := none,
                                   order_number := "ORD-20260108-004" }],
    orderItems := [] }

/-! ## Lemmas: decimal rendering and parsing -/

theorem digitChar_toNat : ∀ d, d < 10 → (digitChar d).toNat = 48 + d := by decide

theorem digitChar_ne_dash : ∀ d, d < 10 → digitChar d ≠ '-' := by decide

theorem natDigitsAux_irrel : ∀ (f1 f2 n : Nat), n < f1 → n < f2 →
    natDigitsAux f1 n = natDigitsAux f2 n := by
  intro f1
  induction f1 with
  | zero => intro f2 n h1 _; omega
  | succ f ih =>
    intro f2 n h1 h2
    cases f2 with
    | zero => omega
    | succ g =>
      by_cases hn : n < 10
      · simp [natDigitsAux, hn]
      · have hlt : n / 10 < n := Nat.div_lt_self (by omega) (by omega)
        simp only [natDigitsAux, if_neg hn]
        rw [ih g (n / 10) (by omega) (by omega)]

theorem natDigits_lt10 (n : Nat) (h : n < 10) : natDigits n = [digitChar n] := by
  simp [natDigits, natDigitsAux, h]

theorem natDigits_ge10 (n : Nat) (h : 10 ≤ n) :
    natDigits n = natDigits (n / 10) ++ [digitChar (n % 10)] := by
  have hlt : n / 10 < n := Nat.div_lt_self (by omega) (by omega)
  show natDigitsAux (n + 1) n = _
  rw [show natDigitsAux (n + 1) n = natDigitsAux n (n / 10) ++ [digitChar (n % 10)] by
    simp [natDigitsAux, Nat.not_lt.mpr h]]
  rw [natDigitsAux_irrel n (n / 10 + 1) (n / 10) (by omega) (by omega)]
  rfl

theorem parseFold_natDigits (n : Nat) :
    (natDigits n).foldl (fun m c => m * 10 + (c.toNat - 48)) 0 = n := by
  induction n using Nat.strong_induction_on with
  | _ n ih =>
    by_cases h : n < 10
    · rw [natDigits_lt10 n h]
      simp [digitChar_toNat n h]
    · rw [natDigits_ge10 n (by omega), List.foldl_append]
      rw [ih (n / 10) (Nat.div_lt_self (by omega) (by omega))]
      have hm : (digitChar (n % 10)).toNat = 48 + n % 10 :=
        digitChar_toNat _ (Nat.mod_lt _ (by omega))
      simp [hm]
      omega

theorem parseFold_zeros (k : Nat) (l : List Char) :
    (List.replicate k '0' ++ l).foldl (fun m c => m * 10 + (c.toNat - 48)) 0 =
      l.foldl (fun m c => m * 10 + (c.toNat - 48)) 0 := by
  induction k with
  | zero => rfl
  | succ k ih =>
    rw [List.replicate_succ]
    simpa using ih

theorem parseNatDigits_pad (s : Nat) : parseNatDigits (padStart3Zero (natToString s)) = s := by
  show (List.replicate _ '0' ++ natDigits s).foldl _ 0 = s
  rw [parseFold_zeros]
  exact parseFold_natDigits s

theorem dash_not_mem_natDigits (n : Nat) : '-' ∉ natDigits n := by
  induction n using Nat.strong_induction_on with
  | _ n ih =>
    by_cases h : n < 10
    · rw [natDigits_lt10 n h]
      intro hmem
      rcases List.mem_singleton.mp hmem with h'
      exact digitChar_ne_dash n h h'.symm
    · rw [natDigits_ge10 n (by omega)]
      intro hmem
      rcases List.mem_append.mp hmem with h' | h'
      · exact ih (n / 10) (Nat.div_lt_self (by omega) (by omega)) h'
      · exact digitChar_ne_dash (n % 10) (Nat.mod_lt _ (by omega))
          (List.mem_singleton.mp h').symm

theorem dash_not_mem_pad (s : Nat) : '-' ∉ (padStart3Zero (natToString s)).data := by
  intro hmem
  rcases List.mem_append.mp hmem with h | h
  · exact absurd (List.eq_of_mem_replicate h) (by decide)
  · exact dash_not_mem_natDigits s h

theorem natDigits_length_le : ∀ (b n : Nat), 1 ≤ b → n < 10 ^ b →
    (natDigits n).length ≤ b := by
  intro b
  induction b with
  | zero => intro n hb _; omega
  | succ b ih =>
    intro n _ hn
    by_cases h : n < 10
    · rw [natDigits_lt10 n h]
      simp
    · have hb1 : 1 ≤ b := by
        rcases Nat.eq_zero_or_pos b with hb0 | hb0
        · subst hb0; simp at hn; omega
        · exact hb0
      have hdiv : n / 10 < 10 ^ b := by
        rw [Nat.div_lt_iff_lt_mul (by norm_num)]
        calc n < 10 ^ (b + 1) := hn
          _ = 10 ^ b * 10 := by ring
      rw [natDigits_ge10 n (by omega)]
      have := ih (n / 10) hb1 hdiv
      simp [List.length_append]
      omega

theorem pad_length_three (s : Nat) (h : s ≤ 999) :
    (padStart3Zero (natToString s)).data.length = 3 := by
  have hlen : (natDigits s).length ≤ 3 :=
    natDigits_length_le 3 s (by omega) (by omega)
  show (List.replicate (3 - (natDigits s).length) '0' ++ natDigits s).length = 3
  simp [List.length_append]
  omega

/-! ## Lemmas: character-list splitting -/

theorem splitOnChar_of_not_mem (sep : Char) (xs : List Char) (h : sep ∉ xs) :
    splitOnChar sep xs = [xs] := by
  induction xs with
  | nil => rfl
  | cons c cs ih =>
    have hc : ¬ c = sep := fun e => h (e ▸ List.mem_cons_self c cs)
    have hcs : sep ∉ cs := fun m => h (List.mem_cons_of_mem _ m)
    simp [splitOnChar, hc, ih hcs]

theorem splitOnChar_append (sep : Char) (xs ys : List Char) (h : sep ∉ xs) :
    splitOnChar sep (xs ++ sep :: ys) = xs :: splitOnChar sep ys := by
  induction xs with
  | nil => simp [splitOnChar]
  | cons c cs ih =>
    have hc : ¬ c = sep := fun e => h (e ▸ List.mem_cons_self c cs)
    have hcs : sep ∉ cs := fun m => h (List.mem_cons_of_mem _ m)
    simp [splitOnChar, hc, ih hcs]

/-! ## Lemmas: order-number strings -/

theorem mkOrderNumber_data (d : String) (s : Nat) :
    (mkOrderNumber d s).data =
      ['O', 'R', 'D'] ++ '-' :: (d.data ++ '-' :: (padStart3Zero (natToString s)).data) := by
  show (orderNumberDayTag d ++ padStart3Zero (natToString s)).data = _
  rw [String.data_append]
  show ("ORD-" ++ d ++ "-").data ++ _ = _
  rw [String.data_append, String.data_append]
  simp

theorem seqOfOrderNumber_mk (d : String) (s : Nat) (hd : '-' ∉ d.data) :
    seqOfOrderNumber (mkOrderNumber d s) = s := by
  unfold seqOfOrderNumber jsSplit
  rw [mkOrderNumber_data]
  rw [splitOnChar_append '-' ['O', 'R', 'D'] _ (by decide)]
  rw [splitOnChar_append '-' d.data _ hd]
  rw [splitOnChar_of_not_mem '-' _ (dash_not_mem_pad s)]
  show parseNatDigits ⟨(padStart3Zero (natToString s)).data⟩ = s
  exact parseNatDigits_pad s

theorem jsStartsWith_mk (d : String) (s : Nat) :
    jsStartsWith (mkOrderNumber d s) (orderNumberDayTag d) = true := by
  unfold jsStartsWith mkOrderNumber
  rw [String.data_append]
  rw [List.isPrefixOf_iff_prefix]
  exact List.prefix_append _ _

theorem mkOrderNumber_inj_seq (d : String) (s s' : Nat) (hd : '-' ∉ d.data)
    (h : mkOrderNumber d s = mkOrderNumber d s') : s = s' := by
  have := seqOfOrderNumber_mk d s hd
  rw [h, seqOfOrderNumber_mk d s' hd] at this
  exact this.symm

/-! ## Lemmas: latest row by key -/

theorem foldl_latest_mem {α : Type} (key : α → Nat) :
    ∀ (l : List α) (b a : α),
      l.foldl
        (fun acc o =>
          match acc with
          | none => some o
          | some x => if key o > key x then some o else some x)
        (some b) = some a →
      a = b ∨ a ∈ l := by
  intro l
  induction l with
  | nil => intro b a h; left; exact (Option.some_inj.mp h).symm
  | cons c cs ih =>
    intro b a h
    simp only [List.foldl_cons] at h
    by_cases hc : key c > key b
    · rw [if_pos hc] at h
      rcases ih c a h with h' | h'
      · right; exact h' ▸ List.mem_cons_self c cs
      · right; exact List.mem_cons_of_mem _ h'
    · rw [if_neg hc] at h
      rcases ih b a h with h' | h'
      · left; exact h'
      · right; exact List.mem_cons_of_mem _ h'

theorem foldl_latest_max {α : Type} (key : α → Nat) :
    ∀ (l : List α) (b a : α),
      l.foldl
        (fun acc o =>
          match acc with
          | none => some o
          | some x => if key o > key x then some o else some x)
        (some b) = some a →
      key b ≤ key a ∧ ∀ x ∈ l, key x ≤ key a := by
  intro l
  induction l with
  | nil =>
    intro b a h
    cases Option.some_inj.mp h
    exact ⟨Nat.le_refl _, by intro x hx; cases hx⟩
  | cons c cs ih =>
    intro b a h
    simp only [List.foldl_cons] at h
    by_cases hc : key c > key b
    · rw [if_pos hc] at h
      obtain ⟨h1, h2⟩ := ih c a h
      refine ⟨by omega, ?_⟩
      intro x hx
      rcases List.mem_cons.mp hx with rfl | hx'
      · exact h1
      · exact h2 x hx'
    · rw [if_neg hc] at h
      obtain ⟨h1, h2⟩ := ih b a h
      refine ⟨h1, ?_⟩
      intro x hx
      rcases List.mem_cons.mp hx with rfl | hx'
      · omega
      · exact h2 x hx'

theorem foldl_latest_isSome {α : Type} (key : α → Nat) :
    ∀ (l : List α) (b : α),
      ∃ a, l.foldl
        (fun acc o =>
          match acc with
          | none => some o
          | some x => if key o > key x then some o else some x)
        (some b) = some a := by
  intro l
  induction l with
  | nil => intro b; exact ⟨b, rfl⟩
  | cons c cs ih =>
    intro b
    simp only [List.foldl_cons]
    by_cases hc : key c > key b
    · rw [if_pos hc]; exact ih c
    · rw [if_neg hc]; exact ih b

theorem latestBy_mem {α : Type} (key : α → Nat) (l : List α) (a : α)
    (h : latestBy key l = some a) : a ∈ l := by
  cases l with
  | nil => cases h
  | cons c cs =>
    unfold latestBy at h
    simp only [List.foldl_cons] at h
    rcases foldl_latest_mem key cs c a h with h' | h'
    · exact h' ▸ List.mem_cons_self c cs
    · exact List.mem_cons_of_mem _ h'

theorem latestBy_max {α : Type} (key : α → Nat) (l : List α) (a : α)
    (h : latestBy key l = some a) : ∀ x ∈ l, key x ≤ key a := by
  cases l with
  | nil => cases h
  | cons c cs =>
    unfold latestBy at h
    simp only [List.foldl_cons] at h
    obtain ⟨h1, h2⟩ := foldl_latest_max key cs c a h
    intro x hx
    rcases List.mem_cons.mp hx with rfl | hx'
    · exact h1
    · exact h2 x hx'

theorem latestBy_ne_none {α : Type} (key : α → Nat) (c : α) (cs : List α) :
    ∃ a, latestBy key (c :: cs) = some a := by
  unfold latestBy
  simp only [List.foldl_cons]
  exact foldl_latest_isSome key cs c

/-! ## Lemmas: stable sort and first minimum -/

theorem stableSortByKey_cons {α : Type} (key : α → Nat) (x : α) (xs : List α) :
    stableSortByKey key (x :: xs) = insertByKey key x (stableSortByKey key xs) := rfl

theorem mem_insertByKey {α : Type} (key : α → Nat) (x a : α) :
    ∀ l, a ∈ insertByKey key x l ↔ a = x ∨ a ∈ l := by
  intro l
  induction l with
  | nil => simp [insertByKey]
  | cons y ys ih =>
    by_cases h : key x ≤ key y
    · simp [insertByKey, h]
    · simp only [insertByKey, if_neg h, List.mem_cons, ih]
      tauto

theorem mem_stableSortByKey {α : Type} (key : α → Nat) (a : α) :
    ∀ l, a ∈ stableSortByKey key l ↔ a ∈ l := by
  intro l
  induction l with
  | nil => simp [stableSortByKey]
  | cons x xs ih =>
    rw [stableSortByKey_cons, mem_insertByKey, ih]
    simp

theorem length_insertByKey {α : Type} (key : α → Nat) (x : α) :
    ∀ l, (insertByKey key x l).length = l.length + 1 := by
  intro l
  induction l with
  | nil => rfl
  | cons y ys ih =>
    by_cases h : key x ≤ key y
    · simp [insertByKey, h]
    · simp [insertByKey, h, ih]

theorem length_stableSortByKey {α : Type} (key : α → Nat) :
    ∀ l, (stableSortByKey key l).length = l.length := by
  intro l
  induction l with
  | nil => rfl
  | cons x xs ih => rw [stableSortByKey_cons, length_insertByKey, ih]; rfl

theorem pairwise_insertByKey {α : Type} (key : α → Nat) (x : α) :
    ∀ l, l.Pairwise (fun a b => key a ≤ key b) →
      (insertByKey key x l).Pairwise (fun a b => key a ≤ key b) := by
  intro l
  induction l with
  | nil => intro _; simp [insertByKey]
  | cons y ys ih =>
    intro hp
    rcases List.pairwise_cons.mp hp with ⟨hy, hys⟩
    by_cases h : key x ≤ key y
    · rw [insertByKey, if_pos h]
      refine List.pairwise_cons.mpr ⟨?_, hp⟩
      intro b hb
      rcases List.mem_cons.mp hb with rfl | hb'
      · exact h
      · exact Nat.le_trans h (hy b hb')
    · rw [insertByKey, if_neg h]
      refine List.pairwise_cons.mpr ⟨?_, ih hys⟩
      intro b hb
      rcases (mem_insertByKey key x b ys).mp hb with rfl | hb'
      · omega
      · exact hy b hb'

theorem pairwise_stableSortByKey {α : Type} (key : α → Nat) :
    ∀ l, (stableSortByKey key l).Pairwise (fun a b => key a ≤ key b) := by
  intro l
  induction l with
  | nil => simp [stableSortByKey]
  | cons x xs ih => rw [stableSortByKey_cons]; exact pairwise_insertByKey key x _ ih

theorem head?_insertByKey {α : Type} (key : α → Nat) (x : α) :
    ∀ l, (insertByKey key x l).head? =
      some (match l with
            | [] => x
            | y :: _ => if key x ≤ key y then x else y) := by
  intro l
  cases l with
  | nil => rfl
  | cons y ys =>
    by_cases h : key x ≤ key y
    · simp [insertByKey, h]
    · simp [insertByKey, h]

theorem firstMinBy_none_iff {α : Type} (key : α → Nat) :
    ∀ l : List α, firstMinBy key l = none ↔ l = [] := by
  intro l
  cases l with
  | nil => simp [firstMinBy]
  | cons x xs =>
    simp only [firstMinBy]
    constructor
    · intro h
      cases hx : firstMinBy key xs with
      | none => rw [hx] at h; cases h
      | some m => rw [hx] at h; by_cases hk : key x ≤ key m <;> simp [hk] at h
    · intro h; cases h

theorem head?_stableSortByKey {α : Type} (key : α → Nat) :
    ∀ l, (stableSortByKey key l).head? = firstMinBy key l := by
  intro l
  induction l with
  | nil => rfl
  | cons x xs ih =>
    rw [stableSortByKey_cons, head?_insertByKey]
    cases hs : stableSortByKey key xs with
    | nil =>
      have hx : xs = [] := by
        have := length_stableSortByKey key xs
        rw [hs] at this
        exact List.length_eq_zero.mp this.symm
      subst hx
      rfl
    | cons y t =>
      have hy : firstMinBy key xs = some y := by
        rw [← ih, hs]; rfl
      simp only [firstMinBy, hy]
      by_cases hk : key x ≤ key y <;> simp [hk]

theorem firstMinBy_mem {α : Type} (key : α → Nat) :
    ∀ (l : List α) (m : α), firstMinBy key l = some m → m ∈ l := by
  intro l m h
  have hs : (stableSortByKey key l).head? = some m := by
    rw [head?_stableSortByKey]; exact h
  cases hsort : stableSortByKey key l with
  | nil => rw [hsort] at hs; cases hs
  | cons y t =>
    rw [hsort] at hs
    have hym : y = m := Option.some_inj.mp hs
    have hy : m ∈ stableSortByKey key l := by
      rw [hsort, ← hym]; exact List.mem_cons_self y t
    exact (mem_stableSortByKey key m l).mp hy

theorem firstMinBy_min {α : Type} (key : α → Nat) :
    ∀ (l : List α) (m : α), firstMinBy key l = some m → ∀ b ∈ l, key m ≤ key b := by
  intro l m h b hb
  have hs : (stableSortByKey key l).head? = some m := by
    rw [head?_stableSortByKey]; exact h
  cases hsort : stableSortByKey key l with
  | nil => rw [hsort] at hs; cases hs
  | cons y t =>
    rw [hsort] at hs
    have hym : y = m := Option.some_inj.mp hs
    have hp := pairwise_stableSortByKey key l
    rw [hsort] at hp
    have hb' : b ∈ y :: t := by
      rw [← hsort]; exact (mem_stableSortByKey key b l).mpr hb
    rcases List.pairwise_cons.mp hp with ⟨hyall, _⟩
    rcases List.mem_cons.mp hb' with rfl | hbt
    · rw [← hym]
    · rw [← hym]; exact hyall b hbt

theorem firstMinBy_find? {α : Type} (key : α → Nat) :
    ∀ (l : List α) (m : α), firstMinBy key l = some m →
      l.find? (fun b => key b ≤ key m) = some m := by
  intro l
  induction l with
  | nil => intro m h; cases h
  | cons x xs ih =>
    intro m h
    cases hx : firstMinBy key xs with
    | none =>
      simp only [firstMinBy, hx] at h
      have hxm : x = m := Option.some_inj.mp h
      rw [← hxm]
      simp [List.find?]
    | some m' =>
      simp only [firstMinBy, hx] at h
      by_cases hk : key x ≤ key m'
      · rw [if_pos hk] at h
        have hxm : x = m := Option.some_inj.mp h
        rw [← hxm]
        simp [List.find?]
      · rw [if_neg hk] at h
        have hxm : m' = m := Option.some_inj.mp h
        rw [← hxm]
        simp only [List.find?_cons]
        rw [show (decide (key x ≤ key m')) = false from decide_eq_false hk]
        exact ih m' hx

theorem firstMinBy_const_head {α : Type} (key : α → Nat) (c : Nat) :
    ∀ l : List α, (∀ b ∈ l, key b = c) → firstMinBy key l = l.head? := by
  intro l
  induction l with
  | nil => intro _; rfl
  | cons x xs ih =>
    intro hall
    simp only [firstMinBy]
    cases hx : firstMinBy key xs with
    | none => rfl
    | some m =>
      have hm : m ∈ xs := firstMinBy_mem key xs m hx
      have : key x ≤ key m := by
        rw [hall x (List.mem_cons_self x xs), hall m (List.mem_cons_of_mem _ hm)]
      simp [this]

/-! ## Lemmas: dispatch engine -/

theorem find?_updateRowById (l : List Order) (id : Nat) (f : Order → Order)
    (hf : ∀ o, (f o).id = o.id) :
    (updateRowById id f l).find? (fun o => o.id = id) =
      (l.find? (fun o => o.id = id)).map f := by
  induction l with
  | nil => rfl
  | cons o rest ih =>
    simp only [updateRowById, List.map_cons] at *
    by_cases h : o.id = id
    · rw [if_pos h]
      have hfid : (f o).id = id := by rw [hf o]; exact h
      simp [List.find?_cons, hfid, h]
    · rw [if_neg h]
      simp [List.find?_cons, h, ih]

theorem drainLoop_map_order_id (l : List Order) :
    ∀ db : Db, ((drainLoop db l).1).map DrainEntry.order_id = l.map Order.id := by
  induction l with
  | nil => intro db; rfl
  | cons o rest ih =>
    intro db
    cases h : autoAssignRider db o.id with
    | ok p => simp [drainLoop, h, ih]
    | error e => simp [drainLoop, h, ih]

theorem mem_findAvailableRiders_count_zero (db : Db) (limit : Nat) (r : User)
    (hr : r ∈ findAvailableRiders db limit) : countActiveDeliveries db r.id = 0 := by
  unfold findAvailableRiders at hr
  by_cases hall : (User.findByRole db .rider 100).length = 0
  · rw [if_pos hall] at hr
    cases hr
  · rw [if_neg hall] at hr
    have hr' := List.mem_of_mem_take hr
    obtain ⟨hrAll, hrNotBusy⟩ := List.mem_filter.mp hr'
    rw [countActiveDeliveries]
    by_contra hne
    have hpos : 0 < (db.orders.filter
        (fun o => o.rider_id = some r.id ∧ activeStatus o.status)).length :=
      Nat.pos_of_ne_zero hne
    obtain ⟨o, ho⟩ := List.exists_mem_of_length_pos hpos
    obtain ⟨hoOrders, hoProp⟩ := List.mem_filter.mp ho
    have hoProp' : o.rider_id = some r.id ∧ activeStatus o.status := by
      simpa using hoProp
    have hIds : r.id ∈ (User.findByRole db .rider 100).map User.id :=
      List.mem_map_of_mem User.id hrAll
    have hoBusy : o ∈ db.orders.filter (fun o =>
        (match o.rider_id with
         | some rid => decide (rid ∈ (User.findByRole db .rider 100).map User.id)
         | none => false) && decide (activeStatus o.status)) := by
      refine List.mem_filter.mpr ⟨hoOrders, ?_⟩
      rw [hoProp'.1]
      simp [hIds, hoProp'.2]
    have hmemBusy : r.id ∈ ((db.orders.filter (fun o =>
        (match o.rider_id with
         | some rid => decide (rid ∈ (User.findByRole db .rider 100).map User.id)
         | none => false) && decide (activeStatus o.status))).filterMap Order.rider_id).dedup := by
      rw [List.mem_dedup]
      exact List.mem_filterMap.mpr ⟨o, hoBusy, hoProp'.1⟩
    simp only [decide_eq_true_eq] at hrNotBusy
    exact hrNotBusy hmemBusy

theorem autoAssignRider_fresh (db : Db) (id : Nat) (o : Order)
    (h1 : Order.findByPk db id = some o) (h2 : o.status = .ready)
    (h3 : o.rider_id = none) (h4 : findAvailableRiders db 10 ≠ []) :
    ∃ u, selectLeastLoaded (riderDeliveryCounts db (findAvailableRiders db 10)) = some u ∧
      autoAssignRider db id = .ok
        ({ success := true, rider := some u,
           message := "Rider has been automatically assigned to the order",
           alreadyAssigned := false },
         { db with
           orders := updateRowById id (fun x => { x with rider_id := some u.id })
             db.orders }) := by
  have hlen : ¬ (findAvailableRiders db 10).length = 0 := by
    intro hh
    exact h4 (List.length_eq_zero.mp hh)
  obtain ⟨u, hu⟩ : ∃ u,
      selectLeastLoaded (riderDeliveryCounts db (findAvailableRiders db 10)) = some u := by
    unfold selectLeastLoaded
    cases hsort : stableSortByKey (fun p => p.2)
        (riderDeliveryCounts db (findAvailableRiders db 10)) with
    | nil =>
      have := length_stableSortByKey (fun p : User × Nat => p.2)
        (riderDeliveryCounts db (findAvailableRiders db 10))
      rw [hsort] at this
      simp [riderDeliveryCounts] at this
      exact absurd this.symm hlen
    | cons y t => exact ⟨y.1, rfl⟩
  refine ⟨u, hu, ?_⟩
  unfold autoAssignRider
  rw [h1]
  simp only [h2, h3, hu]
  rw [if_neg (by simp)]
  rw [if_neg hlen]
  unfold Order.assignRider
  rw [h1]
  simp [h2]

/-! ## Claim theorems -/

/-- Claim C1: the status route is claimed to reject every target status not
reachable from the order's current status for the acting role, so that no
update leaves the legal transition relation of spec §4.2.  The code violates
this: its `validTransitions` lookup is skipped whenever the current status
has no entry in the table, so the owning restaurant owner moves a `ready`
order back to `confirmed` — an illegal transition — and the handler commits
the write. -/
theorem statusRoute_accepts_ready_to_confirmed :
    exDbC1.orders.map Order.status = [OrderStatus.ready] ∧
    specLegalTransition .restaurant_owner .ready .confirmed = false ∧
    updateOrderStatusHandler exDbC1 5 .restaurant_owner 1 .confirmed none 99 =
      (.ok { exOrderReady with status := .confirmed },
       { exDbC1 with orders := [{ exOrderReady with status := .confirmed }] }) := by
  decide

/-- Claim C2: a transition to `delivered` stamps `delivered_at` with the
current time and sets `rider_earning` to 80% of the delivery fee rounded to
cents exactly when a rider is assigned and the fee is nonzero (it stays
unset otherwise); a transition to `cancelled` stamps `cancelled_at` and
clears `rider_earning`. -/
theorem updateStatus_side_effects (db : Db) (id : Nat) (status : OrderStatus)
    (extra : UpdateExtra) (now : Nat) (o o' : Order) (db' : Db)
    (hfind : Order.findByPk db id = some o)
    (hprior : o.rider_earning = none)
    (hupd : Order.updateStatus db id status extra now = .ok (o', db')) :
    (status = .delivered →
      o'.delivered_at = some now ∧
      (o.rider_id.isSome ∧ o.delivery_fee ≠ 0 →
        o'.rider_earning = some (riderEarningCents o.delivery_fee)) ∧
      (¬ (o.rider_id.isSome ∧ o.delivery_fee ≠ 0) → o'.rider_earning = none) ∧
      (o'.rider_earning.isSome ↔ o.rider_id.isSome ∧ o.delivery_fee ≠ 0)) ∧
    (status = .cancelled → o'.cancelled_at = some now ∧ o'.rider_earning = none) := by
  unfold Order.updateStatus at hupd
  rw [hfind] at hupd
  have ho' : o' = applyUpdateStatus o status extra now := by
    cases hupd
    rfl
  subst ho'
  constructor
  · intro hst
    subst hst
    unfold applyUpdateStatus
    simp only [if_pos rfl]
    by_cases hc : o.rider_id.isSome ∧ o.delivery_fee ≠ 0
    · rw [if_pos hc]
      refine ⟨rfl, fun _ => rfl, fun hn => absurd hc hn, ?_⟩
      simp [hc]
    · rw [if_neg hc]
      refine ⟨rfl, fun hp => absurd hp hc, fun _ => hprior, ?_⟩
      simp [hprior, hc]
  · intro hst
    subst hst
    unfold applyUpdateStatus
    exact ⟨rfl, rfl⟩

/-- Witness for C2 at `exDbC2`: delivering order 1 (rider 7, fee 50.00)
yields `delivered_at = 77` and `rider_earning = 4000` cents; cancelling
order 2 stamps `cancelled_at = 88` and leaves `rider_earning` cleared. -/
theorem updateStatus_side_effects_witness :
    deliveredOrderC2.delivered_at = some 77 ∧
    deliveredOrderC2.rider_earning = some (riderEarningCents ordC2a.delivery_fee) ∧
    cancelledOrderC2.cancelled_at = some 88 ∧
    cancelledOrderC2.rider_earning = none := by
  have h1 := (updateStatus_side_effects exDbC2 1 .delivered {} 77 ordC2a
    deliveredOrderC2 deliveredDbC2 (by decide) (by decide) (by decide)).1 rfl
  have h2 := (updateStatus_side_effects exDbC2 2 .cancelled
    { cancellation_reason := some "r" } 88 ordC2b
    cancelledOrderC2 cancelledDbC2 (by decide) (by decide) (by decide)).2 rfl
  exact ⟨h1.1, h1.2.1 (by decide), h2.1, h2.2⟩

/-- Counterexample to C3 as stated: for a transition to `out_for_delivery`
the fanout does not notify the restaurant owner (user 40), and for a
transition to `delivered` it does not notify the assigned rider (user 30),
contradicting the claimed recipient sets. -/
theorem notifyFanout_spec_mapping_fails :
    exSnapC3.owner_id = 40 ∧ exSnapC3.rider_id = some 30 ∧
    40 ∉ (notifyOrderStatusChange exSnapC3 .out_for_delivery).map NotifEntry.userId ∧
    30 ∉ (notifyOrderStatusChange exSnapC3 .delivered).map NotifEntry.userId := by
  decide

/-- Claim C3 (amended): the fanout produces exactly these recipients —
`pending`: restaurant owner; `confirmed`/`preparing`: customer; `ready`:
customer plus the rider when assigned; `out_for_delivery`: customer only;
`delivered`: customer and restaurant owner; `cancelled`: customer,
restaurant owner, and the rider when assigned. -/
theorem notifyFanout_matches_amended (o : OrderSnapshot) (status : OrderStatus) :
    (notifyOrderStatusChange o status).map (fun e => (e.userId, e.userRole)) =
      amendedFanoutRecipients o status := by
  cases status <;> cases h : o.rider_id <;>
    simp [notifyOrderStatusChange, amendedFanoutRecipients, h]

/-- Counterexample to C4 as stated: order 1 of `exDbC4` already has rider 7
assigned, yet `autoAssignRider` does not return success — the not-`ready`
status check precedes the already-assigned check and returns a declined
result. -/
theorem autoAssign_assigned_not_ready_declined :
    (Order.findByPk exDbC4 1).map Order.rider_id = some (some 7) ∧
    autoAssignRider exDbC4 1 =
      .ok ({ success := false, rider := none,
             message := "Order must be in 'ready' status" }, exDbC4) := by
  decide

/-- Claim C4 (amended): for every order whose `rider_id` is already set,
`autoAssignRider` never modifies the store (repeated calls are idempotent
no-ops and never overwrite the assignment); it reports success with the
existing assignment when the order is in `ready` status, and returns the
declined not-`ready` result otherwise. -/
theorem autoAssign_already_assigned_noop (db : Db) (id : Nat) (o : Order) (r : Nat)
    (hfind : Order.findByPk db id = some o) (hrid : o.rider_id = some r) :
    ∃ res, autoAssignRider db id = .ok (res, db) ∧
      (o.status = .ready →
        res.success = true ∧ res.alreadyAssigned = true ∧
        res.rider = User.findByPk db r) ∧
      (o.status ≠ .ready → res.success = false) := by
  unfold autoAssignRider
  rw [hfind]
  by_cases hs : o.status = .ready
  · refine ⟨{ success := true, rider := User.findByPk db r,
              message := "Rider already assigned", alreadyAssigned := true },
      ?_, fun _ => ⟨rfl, rfl, rfl⟩, fun hne => absurd hs hne⟩
    simp [hs, hrid]
  · refine ⟨{ success := false, rider := none,
              message := "Order must be in 'ready' status", alreadyAssigned := false },
      ?_, fun hr => absurd hr hs, fun _ => rfl⟩
    simp [hs]

/-- Witness for C4 at `exDbC4w`: order 1 is `ready` with rider 7 assigned,
so `autoAssignRider` is a success-reporting no-op. -/
theorem autoAssign_already_assigned_noop_witness :
    ∃ res, autoAssignRider exDbC4w 1 = .ok (res, exDbC4w) ∧
      (exOrderReady.status = .ready →
        res.success = true ∧ res.alreadyAssigned = true ∧
        res.rider = User.findByPk exDbC4w 7) ∧
      (exOrderReady.status ≠ .ready → res.success = false) :=
  autoAssign_already_assigned_noop exDbC4w 1 exOrderReady 7 (by decide) (by decide)

/-- Claim C5: on an unassigned `ready` order with a non-empty candidate
pool, `autoAssignRider` assigns the stable-sort selection over the
per-candidate active-delivery counts; that selection is a candidate of
minimal count and the first such candidate in input order, and on counts
`[2, 0, 1]` it picks the rider with count 0. -/
theorem autoAssign_selects_least_loaded :
    (∀ (db : Db) (id : Nat) (o : Order), Order.findByPk db id = some o →
      o.status = .ready → o.rider_id = none → findAvailableRiders db 10 ≠ [] →
      ∃ res db', autoAssignRider db id = .ok (res, db') ∧ res.success = true ∧
        res.rider = selectLeastLoaded (riderDeliveryCounts db (findAvailableRiders db 10))) ∧
    (∀ (l : List (User × Nat)) (m : User), selectLeastLoaded l = some m →
      ∃ p, p ∈ l ∧ p.1 = m ∧ (∀ q ∈ l, p.2 ≤ q.2) ∧
        l.find? (fun q => q.2 ≤ p.2) = some p) ∧
    selectLeastLoaded [(exRiderA, 2), (exRiderB, 0), (exRiderC, 1)] = some exRiderB := by
  refine ⟨?_, ?_, by decide⟩
  · intro db id o h1 h2 h3 h4
    obtain ⟨u, hu, heq⟩ := autoAssignRider_fresh db id o h1 h2 h3 h4
    exact ⟨_, _, heq, rfl, by rw [hu]⟩
  · intro l m hm
    unfold selectLeastLoaded at hm
    rw [head?_stableSortByKey] at hm
    cases hp : firstMinBy (fun p : User × Nat => p.2) l with
    | none => rw [hp] at hm; cases hm
    | some p =>
      rw [hp] at hm
      have hpm : p.1 = m := Option.some_inj.mp hm
      exact ⟨p, firstMinBy_mem _ l p hp, hpm,
        firstMinBy_min _ l p hp, firstMinBy_find? _ l p hp⟩

/-- Witness for C5 at `exDbC5`: the unassigned `ready` order 1 with free
riders 7 and 8 gets the stable-sort selection assigned. -/
theorem autoAssign_selects_least_loaded_witness :
    ∃ res db', autoAssignRider exDbC5 1 = .ok (res, db') ∧ res.success = true ∧
      res.rider =
        selectLeastLoaded (riderDeliveryCounts exDbC5 (findAvailableRiders exDbC5 10)) :=
  autoAssign_selects_least_loaded.1 exDbC5 1 { exOrderReady with rider_id := none }
    (by decide) (by decide) (by decide) (by decide)

/-- Claim C10: every candidate surviving the availability filter holds no
`ready` or `out_for_delivery` order, so each per-candidate count in the
least-loaded step is 0 and the assigned rider is always the first rider of
the available list. -/
theorem availableRiders_zero_load_head_selected :
    (∀ (db : Db) (limit : Nat) (r : User), r ∈ findAvailableRiders db limit →
      countActiveDeliveries db r.id = 0) ∧
    (∀ (db : Db) (id : Nat) (o : Order), Order.findByPk db id = some o →
      o.status = .ready → o.rider_id = none → findAvailableRiders db 10 ≠ [] →
      ∃ res db', autoAssignRider db id = .ok (res, db') ∧
        res.rider = (findAvailableRiders db 10).head?) := by
  refine ⟨mem_findAvailableRiders_count_zero, ?_⟩
  intro db id o h1 h2 h3 h4
  obtain ⟨u, hu, heq⟩ := autoAssignRider_fresh db id o h1 h2 h3 h4
  refine ⟨_, _, heq, ?_⟩
  show some u = (findAvailableRiders db 10).head?
  rw [← hu]
  unfold selectLeastLoaded
  rw [head?_stableSortByKey]
  rw [firstMinBy_const_head (fun p : User × Nat => p.2) 0 _ ?hzero]
  case hzero =>
    intro p hp
    obtain ⟨r, hr, rfl⟩ := List.mem_map.mp hp
    exact mem_findAvailableRiders_count_zero db 10 r hr
  show ((findAvailableRiders db 10).map _).head?.map _ = _
  rw [List.head?_map]
  cases (findAvailableRiders db 10).head? <;> rfl

/-- Witness for C10 at `exDbC10`: riders 7 and 8 are both free (count 0)
and the head of the available list is assigned to order 4. -/
theorem availableRiders_zero_load_witness :
    countActiveDeliveries exDbC10 7 = 0 ∧
    (∃ res db', autoAssignRider exDbC10 4 = .ok (res, db') ∧
      res.rider = (findAvailableRiders exDbC10 10).head?) :=
  ⟨availableRiders_zero_load_head_selected.1 exDbC10 10 ⟨7, .rider, true, 0⟩ (by decide),
   availableRiders_zero_load_head_selected.2 exDbC10 4
     { exOrderReady with id := 4, rider_id := none,
                         order_number := "ORD-20260108-004" }
     (by decide) (by decide) (by decide) (by decide)⟩

/-- Claim C8: the backlog drain pulls at most `maxAssignments` unassigned
`ready` orders, oldest first (creation-time ascending), tries to assign each
one, and reports exactly one result per pulled order — a failed assignment
for one order does not suppress the entries of the remaining ones. -/
theorem drainBacklog_fifo_independent (db : Db) (maxAssignments : Nat) :
    ((assignPendingReadyOrders db maxAssignments).1).map DrainEntry.order_id =
      (Order.findAvailableForRider db maxAssignments).map Order.id ∧
    (Order.findAvailableForRider db maxAssignments).length ≤ maxAssignments ∧
    ((Order.findAvailableForRider db maxAssignments).map Order.created_at).Pairwise
      (fun a b => a ≤ b) ∧
    ∀ o ∈ Order.findAvailableForRider db maxAssignments,
      o ∈ db.orders ∧ o.status = .ready ∧ o.rider_id = none := by
  refine ⟨drainLoop_map_order_id _ db, List.length_take_le _ _, ?_, ?_⟩
  · rw [List.pairwise_map]
    have hp := pairwise_stableSortByKey Order.created_at
      (db.orders.filter (fun o => o.status = .ready ∧ o.rider_id = none))
    exact hp.sublist (List.take_sublist _ _)
  · intro o ho
    have ho' := List.mem_of_mem_take ho
    have hof := (mem_stableSortByKey Order.created_at o _).mp ho'
    obtain ⟨hmem, hprop⟩ := List.mem_filter.mp hof
    have hprop' : o.status = .ready ∧ o.rider_id = none := by simpa using hprop
    exact ⟨hmem, hprop'.1, hprop'.2⟩

/-- Witness for C8 at `exDbC8`: two unassigned ready orders and no riders —
both assignments fail, yet both orders are pulled oldest-first and each gets
its own result entry. -/
theorem drainBacklog_fifo_independent_witness :
    ((assignPendingReadyOrders exDbC8 2).1).map DrainEntry.order_id =
      (Order.findAvailableForRider exDbC8 2).map Order.id ∧
    (Order.findAvailableForRider exDbC8 2).length ≤ 2 ∧
    ((Order.findAvailableForRider exDbC8 2).map Order.created_at).Pairwise
      (fun a b => a ≤ b) ∧
    ∀ o ∈ Order.findAvailableForRider exDbC8 2,
      o ∈ exDbC8.orders ∧ o.status = .ready ∧ o.rider_id = none :=
  drainBacklog_fifo_independent exDbC8 2

/-- Claim C6: placing an order with an absent cart or a cart with zero items
fails with the empty-cart error and leaves the store untouched, and more
generally every failing `placeOrder` (validation or insert step) returns the
unchanged store — the transaction rolls back and no partial state is
visible. -/
theorem placeOrder_emptyCart_and_rollback :
    (∀ (db : Db) (uid aid : Nat) (dateStr : String) (now : Nat), aid ≠ 0 →
      Cart.findByUser db uid = none →
      placeOrder db uid aid dateStr now = (.error .emptyCart, db)) ∧
    (∀ (db : Db) (uid aid : Nat) (dateStr : String) (now : Nat) (c : Cart), aid ≠ 0 →
      Cart.findByUser db uid = some c →
      CartItem.findByCart db c.id = [] →
      placeOrder db uid aid dateStr now = (.error .emptyCart, db)) ∧
    (∀ (db : Db) (uid aid : Nat) (dateStr : String) (now : Nat) (e : PlaceError)
      (db2 : Db),
      placeOrder db uid aid dateStr now = (.error e, db2) → db2 = db) := by
  refine ⟨?_, ?_, ?_⟩
  · intro db uid aid dateStr now haid hcart
    unfold placeOrder
    rw [if_neg haid, hcart]
  · intro db uid aid dateStr now c haid hcart hitems
    unfold placeOrder
    rw [if_neg haid, hcart]
    simp [hitems]
  · intro db uid aid dateStr now e db2 h
    unfold placeOrder at h
    by_cases h0 : aid = 0
    · rw [if_pos h0] at h
      cases h; rfl
    · rw [if_neg h0] at h
      cases hcart : Cart.findByUser db uid with
      | none => simp only [hcart] at h; cases h; rfl
      | some cart =>
        simp only [hcart] at h
        by_cases hlen : (CartItem.findByCart db cart.id).length = 0
        · rw [if_pos hlen] at h
          cases h; rfl
        · rw [if_neg hlen] at h
          cases haddr : Address.findById db aid with
          | none => simp only [haddr] at h; cases h; rfl
          | some address =>
            simp only [haddr] at h
            by_cases hown : address.user_id ≠ uid
            · rw [if_pos hown] at h
              cases h; rfl
            · rw [if_neg hown] at h
              cases hrest : Restaurant.findById db cart.restaurant_id with
              | none => simp only [hrest] at h; cases h; rfl
              | some restaurant =>
                simp only [hrest] at h
                by_cases hact : restaurant.is_active ∧ restaurant.is_accepting_orders
                · rw [if_neg (by simpa using hact)] at h
                  cases hcfc : OrderItem.createFromCart db
                      (nextId (db.orders.map Order.id))
                      (CartItem.findByCart db cart.id)
                      (nextId (db.orderItems.map OrderItem.id)) with
                  | error e' => simp only [hcfc] at h; cases h; rfl
                  | ok its =>
                    simp only [hcfc] at h
                    cases congrArg Prod.fst h
                · rw [if_pos (by simpa using hact)] at h
                  cases h; rfl

/-- Witness for C6 at `exDbC6`: customer 9 has no cart, so placement fails
with the empty-cart error and the store is unchanged. -/
theorem placeOrder_emptyCart_witness :
    placeOrder exDbC6 9 3 "20260108" 50 = (.error .emptyCart, exDbC6) :=
  placeOrder_emptyCart_and_rollback.1 exDbC6 9 3 "20260108" 50 (by decide) (by decide)

/-- Claim C7: every committed order has `subtotal` equal to the cart's
`Σ quantity × price`, the fixed 50.00 delivery fee, and
`total_amount = subtotal + delivery_fee`; on the 2 × 10.00 + 1 × 5.00
scenario cart this gives subtotal 25.00 and total 75.00. -/
theorem placeOrder_totals :
    (∀ (db : Db) (uid aid : Nat) (dateStr : String) (now : Nat) (cart : Cart)
      (o : Order) (items : List OrderItem) (db2 : Db),
      Cart.findByUser db uid = some cart →
      placeOrder db uid aid dateStr now = (.ok (o, items), db2) →
      o.subtotal = CartItem.calculateSubtotal db cart.id ∧
      o.subtotal = ((CartItem.findByCart db cart.id).map
        (fun i => i.quantity * i.price)).sum ∧
      o.delivery_fee = deliveryFeeCents ∧
      o.total_amount = o.subtotal + o.delivery_fee) ∧
    placeOrder exDbC7 9 3 "20260108" 50 = (.ok (placedOrderC7, placedItemsC7), placedDbC7) ∧
    placedOrderC7.subtotal = 2500 ∧ placedOrderC7.total_amount = 7500 := by
  refine ⟨?_, by decide, by decide, by decide⟩
  intro db uid aid dateStr now cart o items db2 hcart h
  unfold placeOrder at h
  by_cases h0 : aid = 0
  · rw [if_pos h0] at h
    cases congrArg Prod.fst h
  · rw [if_neg h0] at h
    simp only [hcart] at h
    by_cases hlen : (CartItem.findByCart db cart.id).length = 0
    · rw [if_pos hlen] at h
      cases congrArg Prod.fst h
    · rw [if_neg hlen] at h
      cases haddr : Address.findById db aid with
      | none => simp only [haddr] at h; cases congrArg Prod.fst h
      | some address =>
        simp only [haddr] at h
        by_cases hown : address.user_id ≠ uid
        · rw [if_pos hown] at h
          cases congrArg Prod.fst h
        · rw [if_neg hown] at h
          cases hrest : Restaurant.findById db cart.restaurant_id with
          | none => simp only [hrest] at h; cases congrArg Prod.fst h
          | some restaurant =>
            simp only [hrest] at h
            by_cases hact : restaurant.is_active ∧ restaurant.is_accepting_orders
            · rw [if_neg (by simpa using hact)] at h
              cases hcfc : OrderItem.createFromCart db
                  (nextId (db.orders.map Order.id))
                  (CartItem.findByCart db cart.id)
                  (nextId (db.orderItems.map OrderItem.id)) with
              | error e' => simp only [hcfc] at h; cases congrArg Prod.fst h
              | ok its =>
                simp only [hcfc] at h
                simp only [Prod.mk.injEq, Except.ok.injEq] at h
                obtain ⟨⟨ho, _⟩, _⟩ := h
                subst ho
                exact ⟨rfl, by simp [CartItem.calculateSubtotal], rfl, rfl⟩
            · rw [if_pos (by simpa using hact)] at h
              cases congrArg Prod.fst h

/-- Witness for C7 at `exDbC7`: the committed order of the scenario cart
satisfies the subtotal and total equations. -/
theorem placeOrder_totals_witness :
    Cart.findByUser exDbC7 9 = some exCartC7 ∧
    (placedOrderC7.subtotal = CartItem.calculateSubtotal exDbC7 exCartC7.id ∧
      placedOrderC7.subtotal = ((CartItem.findByCart exDbC7 exCartC7.id).map
        (fun i => i.quantity * i.price)).sum ∧
      placedOrderC7.delivery_fee = deliveryFeeCents ∧
      placedOrderC7.total_amount = placedOrderC7.subtotal + placedOrderC7.delivery_fee) :=
  ⟨by decide, placeOrder_totals.1 exDbC7 9 3 "20260108" 50 exCartC7 placedOrderC7
    placedItemsC7 placedDbC7 (by decide) (by decide)⟩

/-- Claim C9: under sequential execution — every existing order of the day
carries a well-formed number `ORD-<dateStr>-<pad3 s>` with `1 ≤ s ≤ k`, and
daily sequences increase strictly with creation time — the generated number
has the `ORD-<dateStr>-<3-digit-sequence>` format, its sequence is one
greater than the highest (= latest-created) existing sequence for the day
(1 when the day has no order), it is strictly greater than every existing
daily sequence, and the generated number collides with no existing order
number. -/
theorem generateOrderNumber_daily_sequence (db : Db) (dateStr : String) (k : Nat)
    (hdash : '-' ∉ dateStr.data) (hk : k ≤ 998)
    (hforms : ∀ o ∈ db.orders,
      jsStartsWith o.order_number (orderNumberDayTag dateStr) = true →
      ∃ s, 1 ≤ s ∧ s ≤ k ∧ o.order_number = mkOrderNumber dateStr s)
    (hmono : ∀ o ∈ db.orders, ∀ o' ∈ db.orders,
      jsStartsWith o.order_number (orderNumberDayTag dateStr) = true →
      jsStartsWith o'.order_number (orderNumberDayTag dateStr) = true →
      seqOfOrderNumber o.order_number < seqOfOrderNumber o'.order_number →
      o.created_at < o'.created_at) :
    ∃ m, Order.generateOrderNumber db dateStr = mkOrderNumber dateStr m ∧
      1 ≤ m ∧ m ≤ 999 ∧
      seqOfOrderNumber (Order.generateOrderNumber db dateStr) = m ∧
      (padStart3Zero (natToString m)).data.length = 3 ∧
      (∀ o ∈ db.orders,
        jsStartsWith o.order_number (orderNumberDayTag dateStr) = true →
        seqOfOrderNumber o.order_number < m) ∧
      (∀ o ∈ db.orders, o.order_number ≠ Order.generateOrderNumber db dateStr) ∧
      ((∀ o ∈ db.orders,
        jsStartsWith o.order_number (orderNumberDayTag dateStr) = false) → m = 1) ∧
      ((∃ o ∈ db.orders,
          jsStartsWith o.order_number (orderNumberDayTag dateStr) = true) →
        ∃ o ∈ db.orders,
          jsStartsWith o.order_number (orderNumberDayTag dateStr) = true ∧
          m = seqOfOrderNumber o.order_number + 1 ∧
          ∀ o' ∈ db.orders,
            jsStartsWith o'.order_number (orderNumberDayTag dateStr) = true →
            seqOfOrderNumber o'.order_number ≤ seqOfOrderNumber o.order_number) := by
  cases htod : latestBy Order.created_at (db.orders.filter
      (fun o => jsStartsWith o.order_number (orderNumberDayTag dateStr))) with
  | none =>
    have hempty : db.orders.filter
        (fun o => jsStartsWith o.order_number (orderNumberDayTag dateStr)) = [] := by
      cases hcase : db.orders.filter
          (fun o => jsStartsWith o.order_number (orderNumberDayTag dateStr)) with
      | nil => rfl
      | cons c cs =>
        obtain ⟨a, ha⟩ := latestBy_ne_none Order.created_at c cs
        rw [hcase] at htod
        rw [htod] at ha
        cases ha
    have hgen : Order.generateOrderNumber db dateStr = mkOrderNumber dateStr 1 := by
      simp only [Order.generateOrderNumber, htod]
    have hnomem : ∀ o ∈ db.orders,
        jsStartsWith o.order_number (orderNumberDayTag dateStr) = true → False := by
      intro o ho hs
      have hmem : o ∈ db.orders.filter
          (fun o => jsStartsWith o.order_number (orderNumberDayTag dateStr)) :=
        List.mem_filter.mpr ⟨ho, hs⟩
      rw [hempty] at hmem
      cases hmem
    refine ⟨1, hgen, Nat.le_refl 1, by omega, ?_, pad_length_three 1 (by omega),
      ?_, ?_, fun _ => rfl, ?_⟩
    · rw [hgen]; exact seqOfOrderNumber_mk dateStr 1 hdash
    · intro o ho hs
      exact absurd (hnomem o ho hs) (fun f => f)
    · intro o ho heq
      apply hnomem o ho
      rw [heq, hgen]
      exact jsStartsWith_mk dateStr 1
    · intro hex
      obtain ⟨o, ho, hs⟩ := hex
      exact absurd (hnomem o ho hs) (fun f => f)
  | some lo =>
    have hlomem : lo ∈ db.orders.filter
        (fun o => jsStartsWith o.order_number (orderNumberDayTag dateStr)) :=
      latestBy_mem _ _ _ htod
    obtain ⟨hloOrders, hloMatch⟩ := List.mem_filter.mp hlomem
    obtain ⟨sl, hsl1, hslk, hsleq⟩ := hforms lo hloOrders hloMatch
    have hseqlo : seqOfOrderNumber lo.order_number = sl := by
      rw [hsleq]; exact seqOfOrderNumber_mk dateStr sl hdash
    have hgen : Order.generateOrderNumber db dateStr = mkOrderNumber dateStr (sl + 1) := by
      simp only [Order.generateOrderNumber, htod]
      rw [hseqlo]
    have hmax : ∀ o ∈ db.orders,
        jsStartsWith o.order_number (orderNumberDayTag dateStr) = true →
        seqOfOrderNumber o.order_number ≤ sl := by
      intro o ho hs
      by_contra hgt
      push_neg at hgt
      have hlt : lo.created_at < o.created_at :=
        hmono lo hloOrders o ho hloMatch hs (by rw [hseqlo]; exact hgt)
      have hle : o.created_at ≤ lo.created_at :=
        latestBy_max _ _ _ htod o (List.mem_filter.mpr ⟨ho, hs⟩)
      omega
    have hseqgen : seqOfOrderNumber (Order.generateOrderNumber db dateStr) = sl + 1 := by
      rw [hgen]; exact seqOfOrderNumber_mk dateStr (sl + 1) hdash
    refine ⟨sl + 1, hgen, by omega, by omega, hseqgen,
      pad_length_three (sl + 1) (by omega), ?_, ?_, ?_, ?_⟩
    · intro o ho hs
      have := hmax o ho hs
      omega
    · intro o ho heq
      by_cases hs : jsStartsWith o.order_number (orderNumberDayTag dateStr) = true
      · have h1 := hmax o ho hs
        have h2 : seqOfOrderNumber o.order_number = sl + 1 := by
          rw [heq]; exact hseqgen
        omega
      · apply hs
        rw [heq, hgen]
        exact jsStartsWith_mk dateStr (sl + 1)
    · intro hall
      have := hall lo hloOrders
      rw [hloMatch] at this
      cases this
    · intro _
      refine ⟨lo, hloOrders, hloMatch, by rw [hseqlo], ?_⟩
      intro o' ho' hs'
      rw [hseqlo]
      exact hmax o' ho' hs'

/-- Witness for C9 at `exDbC9`: with `ORD-20260108-001` already present and
created sequentially, the generated number is fresh, well-formed, and its
sequence exceeds the existing one. -/
theorem generateOrderNumber_daily_sequence_witness :
    ∃ m, Order.generateOrderNumber exDbC9 "20260108" = mkOrderNumber "20260108" m ∧
      1 ≤ m ∧ m ≤ 999 ∧
      seqOfOrderNumber (Order.generateOrderNumber exDbC9 "20260108") = m ∧
      ∀ o ∈ exDbC9.orders, o.order_number ≠ Order.generateOrderNumber exDbC9 "20260108" := by
  have hf : ∀ o ∈ exDbC9.orders,
      jsStartsWith o.order_number (orderNumberDayTag "20260108") = true →
      ∃ s, 1 ≤ s ∧ s ≤ 1 ∧ o.order_number = mkOrderNumber "20260108" s := by
    intro o ho _
    have ho' : o = { exOrderReady with rider_id := none } := by
      simpa [exDbC9] using ho
    subst ho'
    exact ⟨1, by omega, by omega, by decide⟩
  have hm : ∀ o ∈ exDbC9.orders, ∀ o' ∈ exDbC9.orders,
      jsStartsWith o.order_number (orderNumberDayTag "20260108") = true →
      jsStartsWith o'.order_number (orderNumberDayTag "20260108") = true →
      seqOfOrderNumber o.order_number < seqOfOrderNumber o'.order_number →
      o.created_at < o'.created_at := by
    intro o ho o' ho' _ _ hlt
    have hoe : o = { exOrderReady with rider_id := none } := by
      simpa [exDbC9] using ho
    have hoe' : o' = { exOrderReady with rider_id := none } := by
      simpa [exDbC9] using ho'
    rw [hoe, hoe'] at hlt
    exact absurd hlt (lt_irrefl _)
  obtain ⟨m, h1, h2, h3, h4, h5, h6, h7, h8, h9⟩ :=
    generateOrderNumber_daily_sequence exDbC9 "20260108" 1 (by decide) (by omega) hf hm
  exact ⟨m, h1, h2, h3, h4, h7⟩

end DineFlow
